import Mathlib

/-!
Shallow embedding of the order-placement / stock-consistency core of the
`advance_ecommerce_drf` backend (`api/models.py`, `api/views.py`,
`api/serializers.py`, `api/cache_utils.py`), with theorems settling the
frozen claims about it.

Numeric modelling: Python integers are unbounded, so quantities and stock
are embedded as `Int` (the `PositiveIntegerField` column constraint is
carried as an explicit hypothesis where needed); `DecimalField` amounts are
embedded as `Int` in currency minor units, which models exact fixed-point
decimal arithmetic.
-/

namespace ECommerce

/-- Order status enum, `models.py` `Order.STATUS_CHOICES`. -/
inductive OrderStatus where
  | pending
  | shipped
  | delivered
  | cancelled
deriving DecidableEq, Repr

instance : Fintype OrderStatus :=
  ⟨⟨{.pending, .shipped, .delivered, .cancelled}, by decide⟩, by intro x; cases x <;> decide⟩

/-- `models.py` `Product`: name, price (decimal), stock, active flag. -/
structure Product where
  id : Nat
  name : String
  price : Int
  stock : Int
  is_active : Bool
deriving DecidableEq, Repr

/-- `models.py` `Product.decrease_stock` (lines 58-64): decrement guarded by
`stock >= quantity`; returns the updated row and the success boolean. -/
def Product.decrease_stock (p : Product) (quantity : Int) : Product × Bool :=
  if p.stock ≥ quantity then ({ p with stock := p.stock - quantity }, true)
  else (p, false)

/-- `models.py` `Product.in_stock` property: `stock > 0`. -/
def Product.in_stock (p : Product) : Bool := p.stock > 0

/-- `models.py` `CartItem`: one line of a cart, keyed by product
(`unique_together = (cart, product)`). -/
structure CartItem where
  productId : Nat
  quantity : Int
deriving DecidableEq, Repr

/-- `models.py` `OrderItem`: frozen quantity and unit price at order time. -/
structure OrderItem where
  productId : Nat
  quantity : Int
  price : Int
deriving DecidableEq, Repr

/-- `models.py` `Order` together with its `OrderItem` rows. -/
structure Order where
  id : Nat
  userId : Nat
  status : OrderStatus
  total_price : Int
  shipping_address : String
  items : List OrderItem
deriving DecidableEq, Repr

/-- Notification events pushed through the channel layer (`consumers.py`):
`order_created`/`order_update` go to the per-user channel `user_{id}`,
`new_order`/`order_status_changed` to the shared `admin_orders` channel. -/
inductive Event where
  | order_created (userId : Nat) (orderId : Nat)
  | new_order (orderId : Nat) (userId : Nat)
  | order_update (userId : Nat) (orderId : Nat) (old_status new_status : OrderStatus)
  | order_status_changed (orderId : Nat) (old_status new_status : OrderStatus)
deriving DecidableEq, Repr

/-- Persistent state seen by one user's request handlers: the product table,
the user's cart (`none` models `Cart.DoesNotExist`), the order table, and the
stream of notification events delivered so far. -/
structure St where
  products : List Product
  cart : Option (List CartItem)
  orders : List Order
  events : List Event
deriving DecidableEq, Repr

/-- `Product.objects.get(id=pid)`: lookup by primary key. -/
def findProduct (ps : List Product) (pid : Nat) : Option Product :=
  ps.find? (fun p => p.id == pid)

/-- Foreign-key dereference `item.product`; the database guarantees the row
exists, so the default is never reached under the well-formedness hypotheses
used by the theorems. -/
def getProduct (ps : List Product) (pid : Nat) : Product :=
  (findProduct ps pid).getD ⟨pid, "", 0, 0, false⟩

/-- `product.save()`: write the mutated row back to the table. -/
def saveProduct (ps : List Product) (p : Product) : List Product :=
  ps.map (fun q => if q.id == p.id then p else q)

/-- Database well-formedness: product ids are pairwise distinct. -/
def ProductsWF (ps : List Product) : Prop :=
  ps.Pairwise (fun a b => a.id ≠ b.id)

instance (ps : List Product) : Decidable (ProductsWF ps) := by
  unfold ProductsWF; infer_instance

theorem findProduct_eq_some {ps : List Product} {p : Product}
    (hwf : ProductsWF ps) (hmem : p ∈ ps) : findProduct ps p.id = some p := by
  induction ps with
  | nil => cases hmem
  | cons q rest ih =>
    rw [ProductsWF, List.pairwise_cons] at hwf
    rcases List.mem_cons.mp hmem with hq | hrest
    · subst hq
      simp [findProduct, List.find?]
    · have hne : q.id ≠ p.id := hwf.1 p hrest
      have : (q.id == p.id) = false := by
        simp [hne]
      simp only [findProduct, List.find?, this]
      exact ih hwf.2 hrest

theorem getProduct_eq {ps : List Product} {p : Product}
    (hwf : ProductsWF ps) (hmem : p ∈ ps) : getProduct ps p.id = p := by
  simp [getProduct, findProduct_eq_some hwf hmem]

/-- C3 helper: one decrement step on the ledger. -/
def decStep (p : Product) (q : Int) : Product := (p.decrease_stock q).1

/-- C3: success of `decrease_stock` is equivalent to `quantity ≤ stock`; on
success exactly `quantity` is subtracted (and nothing else changes), on
failure the row is returned untouched; and starting from non-negative stock,
any sequence of decrements with non-negative quantities keeps stock
non-negative. -/
theorem decrease_stock_contract (p : Product) (q : Int) (qs : List Int)
    (hq : 0 ≤ q) (hqs : ∀ x ∈ qs, 0 ≤ x) (hp : 0 ≤ p.stock) :
    ((p.decrease_stock q).2 = true ↔ q ≤ p.stock)
    ∧ ((p.decrease_stock q).2 = true →
        (p.decrease_stock q).1.stock = p.stock - q
        ∧ (p.decrease_stock q).1.id = p.id
        ∧ (p.decrease_stock q).1.price = p.price
        ∧ (p.decrease_stock q).1.name = p.name
        ∧ (p.decrease_stock q).1.is_active = p.is_active)
    ∧ ((p.decrease_stock q).2 = false → (p.decrease_stock q).1 = p)
    ∧ 0 ≤ (qs.foldl decStep p).stock := by
  refine ⟨?_, ?_, ?_, ?_⟩
  · unfold Product.decrease_stock
    by_cases h : p.stock ≥ q <;> simp [h]
  · intro hsucc
    unfold Product.decrease_stock at hsucc ⊢
    by_cases h : p.stock ≥ q
    · simp [h]
    · simp [h] at hsucc
  · intro hfail
    unfold Product.decrease_stock at hfail ⊢
    by_cases h : p.stock ≥ q
    · simp [h] at hfail
    · simp [h]
  · clear hq
    induction qs generalizing p with
    | nil => simpa using hp
    | cons x xs ih =>
      have hx : 0 ≤ x := hqs x (List.mem_cons_self x xs)
      have hxs : ∀ y ∈ xs, 0 ≤ y := fun y hy => hqs y (List.mem_cons_of_mem x hy)
      have hstep : 0 ≤ (decStep p x).stock := by
        unfold decStep Product.decrease_stock
        by_cases h : p.stock ≥ x
        · simp only [h, if_pos]
          omega
        · simpa [h] using hp
      simpa using ih (decStep p x) hxs hstep

/-- C3 witness: the contract instantiated at stock 5, decrement 3, then the
sequence [2, 4, 1]. -/
theorem decrease_stock_contract_witness :
    (0 ≤ (3 : Int)) ∧ (∀ x ∈ [(2 : Int), 4, 1], 0 ≤ x)
    ∧ 0 ≤ (Product.mk 1 "A" 10 5 true).stock
    ∧ (((Product.mk 1 "A" 10 5 true).decrease_stock 3).2 = true ↔
        (3 : Int) ≤ (Product.mk 1 "A" 10 5 true).stock) := by
  refine ⟨by decide, by decide, by decide, ?_⟩
  exact (decrease_stock_contract (Product.mk 1 "A" 10 5 true) 3 [2, 4, 1]
    (by decide) (by decide) (by decide)).1

/-- Render a status the way Django stores it. -/
def OrderStatus.toStr : OrderStatus → String
  | .pending => "pending"
  | .shipped => "shipped"
  | .delivered => "delivered"
  | .cancelled => "cancelled"

/-- `serializers.py` `UpdateOrderStatusSerializer.validate_status`
(lines 302-308): the proposed value is rejected exactly when the order's
current status is `delivered` or `cancelled` and the value is not itself
`delivered` or `cancelled`. Returns `true` when the value is accepted. -/
def validate_status (orderStatus value : OrderStatus) : Bool :=
  !((orderStatus == .delivered || orderStatus == .cancelled)
      && !(value == .delivered || value == .cancelled))

/-- `models.py` `Order.update_status` (lines 146-164): set the new status,
save, then emit an `order_update` event to the owner's channel inside a
`try/except` that swallows any failure (`notifyFails = true` models the
`except` branch being taken). -/
def Order.update_status (o : Order) (new_status : OrderStatus)
    (notifyFails : Bool) (events : List Event) : Order × List Event :=
  let old_status := o.status
  let o' := { o with status := new_status }
  (o', if notifyFails then events
       else events ++ [.order_update o.userId o.id old_status new_status])

/-- `Order.objects.get(id=oid)`. -/
def findOrder (os : List Order) (oid : Nat) : Option Order :=
  os.find? (fun o => o.id == oid)

/-- `order.save()` as seen through the order table. -/
def saveOrder (os : List Order) (o : Order) : List Order :=
  os.map (fun q => if q.id == o.id then o else q)

/-- Outcome of `AdminOrderStatusUpdateView.patch`. -/
inductive PatchResp where
  | ok (order : Order)
  | badRequest (error : String)
  | notFound (error : String)
deriving DecidableEq, Repr

/-- `views.py` `AdminOrderStatusUpdateView.patch` (lines 632-673): 404 when
the order is missing; otherwise run `validate_status`; on rejection return
the serializer error with the order untouched; on acceptance call
`Order.update_status` and then emit a second `order_update` plus an
`order_status_changed` event, inside the view's own `try/except`
(`notifyFails2` models that `except` branch). -/
def adminOrderStatusUpdate (s : St) (oid : Nat) (target : OrderStatus)
    (notifyFails1 notifyFails2 : Bool) : PatchResp × St :=
  match findOrder s.orders oid with
  | none => (.notFound "Order not found", s)
  | some order =>
    if validate_status order.status target then
      let old_status := order.status
      let upd := order.update_status target notifyFails1 s.events
      let events :=
        if notifyFails2 then upd.2
        else upd.2 ++ [.order_update order.userId order.id old_status target,
                       .order_status_changed order.id old_status target]
      (.ok upd.1, { s with orders := saveOrder s.orders upd.1, events := events })
    else
      (.badRequest ("Cannot change status from " ++ order.status.toStr
          ++ " to " ++ target.toStr), s)

/-- C2 counterexample: on an order in the terminal status `delivered`, a
requested transition to `cancelled` is accepted by the code and the status
is changed, whereas the claim says every transition out of a terminal state
is rejected with the status unchanged. -/
theorem updateStatus_terminal_not_rejected :
    let ord : Order := ⟨1, 7, .delivered, 10, "addr", []⟩
    let s : St := ⟨[], none, [ord], []⟩
    validate_status OrderStatus.delivered OrderStatus.cancelled = true
    ∧ (adminOrderStatusUpdate s 1 .cancelled false false).1 =
        .ok { ord with status := .cancelled }
    ∧ (adminOrderStatusUpdate s 1 .cancelled false false).2.orders =
        [{ ord with status := .cancelled }] := by
  refine ⟨by decide, ?_, ?_⟩ <;> rfl

/-- C2 amended: the code's acceptance relation is coarser than the claimed
state machine. A requested status is rejected exactly when the current
status is terminal (`delivered` or `cancelled`) and the target is
non-terminal (`pending` or `shipped`); every other pair is accepted — in
particular `pending → delivered`, `shipped → pending`, `delivered →
cancelled`, `cancelled → delivered` and all self-transitions. A rejected
request leaves the order's status unchanged; an accepted one sets it to the
target. -/
theorem updateStatus_transition_characterization :
    ∀ cur target : OrderStatus,
      (validate_status cur target = false ↔
        ((cur = .delivered ∨ cur = .cancelled)
          ∧ (target = .pending ∨ target = .shipped)))
      ∧ ∀ oid uid tp addr items f1 f2 ps cart os evs,
          let s : St := ⟨ps, cart, ⟨oid, uid, cur, tp, addr, items⟩ :: os, evs⟩
          (validate_status cur target = false →
            (adminOrderStatusUpdate s oid target f1 f2).2 = s
            ∧ (adminOrderStatusUpdate s oid target f1 f2).1 =
                .badRequest ("Cannot change status from " ++ cur.toStr
                  ++ " to " ++ target.toStr))
          ∧ (validate_status cur target = true →
            (adminOrderStatusUpdate s oid target f1 f2).1 =
              .ok ⟨oid, uid, target, tp, addr, items⟩) := by
  intro cur target
  constructor
  · revert cur target; decide
  · intro oid uid tp addr items f1 f2 ps cart os evs
    constructor
    · intro hrej
      have hfind : findOrder (⟨oid, uid, cur, tp, addr, items⟩ :: os) oid =
          some ⟨oid, uid, cur, tp, addr, items⟩ := by
        simp [findOrder, List.find?]
      constructor <;>
        simp [adminOrderStatusUpdate, hfind, hrej]
    · intro hacc
      have hfind : findOrder (⟨oid, uid, cur, tp, addr, items⟩ :: os) oid =
          some ⟨oid, uid, cur, tp, addr, items⟩ := by
        simp [findOrder, List.find?]
      simp [adminOrderStatusUpdate, hfind, hacc, Order.update_status]

/-- C2 amended witness: the characterization applied at `cur = shipped`,
`target = pending` (accepted by the code) on a concrete store. -/
theorem updateStatus_transition_characterization_witness :
    validate_status .shipped .pending = true
    ∧ (adminOrderStatusUpdate ⟨[], none, [⟨3, 9, .shipped, 5, "a", []⟩], []⟩
        3 .pending false false).1 = .ok ⟨3, 9, .pending, 5, "a", []⟩ :=
  ⟨by decide,
    ((updateStatus_transition_characterization .shipped .pending).2
      3 9 5 "a" [] false false [] none [] []).2 (by decide)⟩

/-- `models.py` `CartItem.save` (lines 113-117): before persisting, clamp the
quantity down to the referenced product's current stock. -/
def CartItem.clampSave (ps : List Product) (it : CartItem) : CartItem :=
  if it.quantity > (getProduct ps it.productId).stock
  then { it with quantity := (getProduct ps it.productId).stock }
  else it

/-- Outcome of the cart endpoints. -/
inductive CartResp where
  | ok
  | validationError (error : String)
  | notFound (error : String)
  | badRequest (error : String)
deriving DecidableEq, Repr

/-- `serializers.py` `AddToCartSerializer` (lines 216-241): `quantity` has
`min_value=1`; `validate_product_id` requires an active row and rejects
out-of-stock products; `validate_quantity` re-fetches the row without the
active filter and rejects a quantity above its stock. Returns the first
validation error, or `none` when the payload is valid. -/
def add_to_cart_validate (s : St) (product_id : Nat) (quantity : Int) :
    Option String :=
  if quantity < 1 then some "Ensure this value is greater than or equal to 1."
  else
    match s.products.find? (fun p => p.id == product_id && p.is_active) with
    | none => some "Product not found"
    | some pv =>
      if !pv.in_stock then some "Product is out of stock"
      else
        match findProduct s.products product_id with
        | some p2 =>
          if quantity > p2.stock then
            some ("Only " ++ toString p2.stock ++ " items available in stock")
          else none
        | none => none

/-- `views.py` `AddToCartView.post` (lines 396-435): after serializer
validation, get-or-create the cart, fetch the active product (404 if
missing), reject when `stock < quantity`, then get-or-create the cart line:
a new line stores the requested quantity, an existing line is incremented
and clamped to the stock; `CartItem.save`'s clamp runs on every store. -/
def addToCart (s : St) (product_id : Nat) (quantity : Int) : CartResp × St :=
  match add_to_cart_validate s product_id quantity with
  | some e => (.validationError e, s)
  | none =>
    let cart := s.cart.getD []
    match s.products.find? (fun p => p.id == product_id && p.is_active) with
    | none => (.notFound "Product not found", s)
    | some product =>
      if product.stock < quantity then
        (.badRequest ("Only " ++ toString product.stock ++ " items available"), s)
      else
        match cart.find? (fun it => it.productId == product_id) with
        | none =>
          let item := CartItem.clampSave s.products ⟨product_id, quantity⟩
          (.ok, { s with cart := some (cart ++ [item]) })
        | some item =>
          let q1 := item.quantity + quantity
          let q2 := if q1 > product.stock then product.stock else q1
          let item' := CartItem.clampSave s.products { item with quantity := q2 }
          let cart' := cart.map (fun j => if j.productId == product_id then item' else j)
          (.ok, { s with cart := some cart' })

/-- `views.py` `UpdateCartItemView.patch` (lines 445-461) with
`UpdateCartItemSerializer` (lines 244-254): 404 when the line is missing;
reject `quantity < 1` or `quantity > product.stock`; otherwise store the new
quantity through `CartItem.save`. Lines are addressed by product id, which
is unique within a cart (`unique_together`). -/
def updateCartItem (s : St) (product_id : Nat) (quantity : Int) : CartResp × St :=
  match s.cart with
  | none => (.notFound "Cart item not found", s)
  | some cart =>
    match cart.find? (fun it => it.productId == product_id) with
    | none => (.notFound "Cart item not found", s)
    | some item =>
      if quantity < 1 then
        (.validationError "Ensure this value is greater than or equal to 1.", s)
      else if quantity > (getProduct s.products item.productId).stock then
        (.validationError ("Only "
            ++ toString (getProduct s.products item.productId).stock
            ++ " items available in stock"), s)
      else
        let item' := CartItem.clampSave s.products { item with quantity := quantity }
        let cart' := cart.map (fun j => if j.productId == product_id then item' else j)
        (.ok, { s with cart := some cart' })

theorem find_active_eq {ps : List Product} {pid : Nat} {p : Product}
    (hwf : ProductsWF ps)
    (h : ps.find? (fun q => q.id == pid && q.is_active) = some p) :
    findProduct ps pid = some p ∧ p.id = pid ∧ p.is_active = true := by
  have hm := List.mem_of_find?_eq_some h
  have hp := List.find?_some h
  have hand : p.id = pid ∧ p.is_active = true := by simpa using hp
  refine ⟨?_, hand.1, hand.2⟩
  have hfp := findProduct_eq_some hwf hm
  rwa [hand.1] at hfp

/-- C6 counterexample: product 1 is active with stock 3; adding quantity 10
to an empty cart is rejected by the serializer with "Only 3 items available
in stock" and the cart is not touched — the request is neither for an
inactive, missing, nor out-of-stock product, and no clamped line is
created, contradicting the claim's characterization of `addItem`. -/
theorem addToCart_over_stock_rejected_not_clamped :
    (addToCart ⟨[⟨1, "A", 10, 3, true⟩], some [], [], []⟩ 1 10).1 =
      .validationError "Only 3 items available in stock"
    ∧ (addToCart ⟨[⟨1, "A", 10, 3, true⟩], some [], [], []⟩ 1 10).2 =
      ⟨[⟨1, "A", 10, 3, true⟩], some [], [], []⟩ := by
  constructor <;> rfl

/-- C6 amended: `addItem(productId, qty)` (with `qty ≥ 1`) rejects, without
mutating anything, requests whose product is missing-or-inactive, out of
stock, or whose own quantity exceeds the product's stock (rather than
clamping a fresh over-stock request); when `qty ≤ stock` it creates a new
line with exactly `qty` or increments an existing line with the sum clamped
to the available stock. -/
theorem addToCart_behavior (s : St) (pid : Nat) (qty : Int)
    (hwf : ProductsWF s.products) (hq : 1 ≤ qty) :
    (s.products.find? (fun q => q.id == pid && q.is_active) = none →
      (addToCart s pid qty).1 = .validationError "Product not found"
      ∧ (addToCart s pid qty).2 = s)
    ∧ ∀ p, s.products.find? (fun q => q.id == pid && q.is_active) = some p →
        (p.stock ≤ 0 →
          (addToCart s pid qty).1 = .validationError "Product is out of stock"
          ∧ (addToCart s pid qty).2 = s)
        ∧ (0 < p.stock → p.stock < qty →
          (addToCart s pid qty).1 =
            .validationError ("Only " ++ toString p.stock ++ " items available in stock")
          ∧ (addToCart s pid qty).2 = s)
        ∧ (0 < p.stock → qty ≤ p.stock →
          (addToCart s pid qty).1 = .ok
          ∧ (addToCart s pid qty).2.products = s.products
          ∧ (addToCart s pid qty).2.orders = s.orders
          ∧ ((s.cart.getD []).find? (fun it => it.productId == pid) = none →
              (addToCart s pid qty).2.cart = some ((s.cart.getD []) ++ [⟨pid, qty⟩]))
          ∧ (∀ item, (s.cart.getD []).find? (fun it => it.productId == pid) = some item →
              (addToCart s pid qty).2.cart =
                some ((s.cart.getD []).map (fun j =>
                  if j.productId == pid then ⟨pid, min (item.quantity + qty) p.stock⟩
                  else j)))) := by
  have h1 : ¬ (qty < 1) := by omega
  constructor
  · intro hnone
    have hv : add_to_cart_validate s pid qty = some "Product not found" := by
      simp [add_to_cart_validate, h1, hnone]
    constructor <;> simp [addToCart, hv]
  · intro p hfind
    obtain ⟨hfp, hpid, hact⟩ := find_active_eq hwf hfind
    have hgp : getProduct s.products pid = p := by simp [getProduct, hfp]
    refine ⟨?_, ?_, ?_⟩
    · intro hzero
      have hnis : p.in_stock = false := by
        simp [Product.in_stock]; omega
      have hv : add_to_cart_validate s pid qty = some "Product is out of stock" := by
        simp [add_to_cart_validate, h1, hfind, hnis]
      constructor <;> simp [addToCart, hv]
    · intro hpos hover
      have his : p.in_stock = true := by
        simp [Product.in_stock]; omega
      have hv : add_to_cart_validate s pid qty =
          some ("Only " ++ toString p.stock ++ " items available in stock") := by
        simp [add_to_cart_validate, h1, hfind, his, hfp, hover]
      constructor <;> simp [addToCart, hv]
    · intro hpos hle
      have his : p.in_stock = true := by
        simp [Product.in_stock]; omega
      have hnover : ¬ (qty > p.stock) := by omega
      have hv : add_to_cart_validate s pid qty = none := by
        simp [add_to_cart_validate, h1, hfind, his, hfp, hnover]
      have hnlt : ¬ (p.stock < qty) := by omega
      refine ⟨?_, ?_, ?_, ?_, ?_⟩
      · cases hc : (s.cart.getD []).find? (fun it => it.productId == pid) <;>
          simp [addToCart, hv, hfind, hnlt, hc]
      · cases hc : (s.cart.getD []).find? (fun it => it.productId == pid) <;>
          simp [addToCart, hv, hfind, hnlt, hc]
      · cases hc : (s.cart.getD []).find? (fun it => it.productId == pid) <;>
          simp [addToCart, hv, hfind, hnlt, hc]
      · intro hc
        have hclamp : CartItem.clampSave s.products ⟨pid, qty⟩ = ⟨pid, qty⟩ := by
          simp [CartItem.clampSave, hgp, hnover]
        simp [addToCart, hv, hfind, hnlt, hc, hclamp]
      · intro item hc
        have hitem : item.productId = pid := by
          simpa using List.find?_some hc
        have hq2 : (if item.quantity + qty > p.stock then p.stock
            else item.quantity + qty) = min (item.quantity + qty) p.stock := by
          rcases le_or_lt (item.quantity + qty) p.stock with h | h
          · rw [if_neg (by omega), min_eq_left h]
          · rw [if_pos h, min_eq_right (by omega)]
        have hmin : min (item.quantity + qty) p.stock ≤ p.stock := min_le_right _ _
        have hitem' : CartItem.clampSave s.products
            { item with quantity := min (item.quantity + qty) p.stock } =
            ⟨pid, min (item.quantity + qty) p.stock⟩ := by
          simp [CartItem.clampSave, hitem, hgp, not_lt.mpr hmin]
        simp only [addToCart, hv, hfind, hnlt, hc, if_neg hnlt, hq2, hitem']
        simp [hitem]

/-- C6 amended witness: product 1 has stock 5 and the cart already holds 3
of it; adding 4 more succeeds and the line is clamped to 5. -/
theorem addToCart_behavior_witness :
    (addToCart ⟨[⟨1, "A", 10, 5, true⟩], some [⟨1, 3⟩], [], []⟩ 1 4).1 = CartResp.ok
    ∧ (addToCart ⟨[⟨1, "A", 10, 5, true⟩], some [⟨1, 3⟩], [], []⟩ 1 4).2.cart =
        some [⟨1, 5⟩] := by
  have h := (addToCart_behavior ⟨[⟨1, "A", 10, 5, true⟩], some [⟨1, 3⟩], [], []⟩
      1 4 (by decide) (by decide)).2 ⟨1, "A", 10, 5, true⟩ (by decide)
  obtain ⟨-, -, h3⟩ := h
  obtain ⟨hok, -, -, -, hsome⟩ := h3 (by decide) (by decide)
  refine ⟨hok, ?_⟩
  rw [hsome ⟨1, 3⟩ (by decide)]
  decide

/-- C8 invariant: every cart line's quantity is at most its product's
current stock. -/
def CartStockInv (ps : List Product) (cart : List CartItem) : Prop :=
  ∀ it ∈ cart, it.quantity ≤ (getProduct ps it.productId).stock

instance (ps : List Product) (cart : List CartItem) :
    Decidable (CartStockInv ps cart) := by
  unfold CartStockInv; infer_instance

theorem clampSave_le (ps : List Product) (it : CartItem) :
    (CartItem.clampSave ps it).quantity ≤
      (getProduct ps (CartItem.clampSave ps it).productId).stock := by
  unfold CartItem.clampSave
  by_cases h : it.quantity > (getProduct ps it.productId).stock <;> simp [h]
  omega

/-- C8: the cart-stock bound survives every cart write. `CartItem.save`'s
clamp always leaves the written line within its product's stock, and both
`AddToCartView.post` and `UpdateCartItemView.patch` (which do not touch the
product table) preserve the invariant that every line's quantity is at most
its product's stock. -/
theorem cart_writes_preserve_stock_bound (s : St) (ps : List Product)
    (it : CartItem) (pid : Nat) (qty : Int)
    (hinv : CartStockInv s.products (s.cart.getD [])) :
    (CartItem.clampSave ps it).quantity ≤
      (getProduct ps (CartItem.clampSave ps it).productId).stock
    ∧ (addToCart s pid qty).2.products = s.products
    ∧ CartStockInv (addToCart s pid qty).2.products
        ((addToCart s pid qty).2.cart.getD [])
    ∧ (updateCartItem s pid qty).2.products = s.products
    ∧ CartStockInv (updateCartItem s pid qty).2.products
        ((updateCartItem s pid qty).2.cart.getD []) := by
  have hstep : ∀ (cart : List CartItem) (item' : CartItem),
      CartStockInv s.products cart →
      item'.quantity ≤ (getProduct s.products item'.productId).stock →
      CartStockInv s.products
        (cart.map (fun j => if j.productId == pid then item' else j)) := by
    intro cart item' hcart hitem' x hx
    rcases List.mem_map.mp hx with ⟨j, hj, rfl⟩
    by_cases hjp : (j.productId == pid) = true
    · simpa [hjp] using hitem'
    · simpa [hjp] using hcart j hj
  have happend : ∀ (cart : List CartItem) (item' : CartItem),
      CartStockInv s.products cart →
      item'.quantity ≤ (getProduct s.products item'.productId).stock →
      CartStockInv s.products (cart ++ [item']) := by
    intro cart item' hcart hitem' x hx
    rcases List.mem_append.mp hx with hold | hnew
    · exact hcart x hold
    · rcases List.mem_singleton.mp hnew with rfl
      exact hitem'
  have hprod : (addToCart s pid qty).2.products = s.products := by
    unfold addToCart
    cases hv : add_to_cart_validate s pid qty with
    | some e => simp
    | none =>
      cases hf : s.products.find? (fun q => q.id == pid && q.is_active) with
      | none => simp
      | some product =>
        by_cases hl : product.stock < qty
        · simp [hl]
        · cases hc : (s.cart.getD []).find? (fun j => j.productId == pid) <;>
            simp [hl, hc]
  have hprod' : (updateCartItem s pid qty).2.products = s.products := by
    unfold updateCartItem
    cases hcart : s.cart with
    | none => simp
    | some cart =>
      cases hc : cart.find? (fun j => j.productId == pid) with
      | none => simp [hc]
      | some item =>
        by_cases h1 : qty < 1
        · simp [hc, h1]
        · by_cases h2 : qty > (getProduct s.products item.productId).stock <;>
            simp [hc, h1, h2]
  refine ⟨clampSave_le ps it, hprod, ?_, hprod', ?_⟩
  · rw [hprod]
    unfold addToCart
    cases hv : add_to_cart_validate s pid qty with
    | some e => simpa using hinv
    | none =>
      cases hf : s.products.find? (fun q => q.id == pid && q.is_active) with
      | none => simpa using hinv
      | some product =>
        by_cases hl : product.stock < qty
        · simpa [hl] using hinv
        · cases hc : (s.cart.getD []).find? (fun j => j.productId == pid) with
          | none =>
            have hgoal := happend (s.cart.getD []) (CartItem.clampSave s.products ⟨pid, qty⟩)
              hinv (clampSave_le s.products ⟨pid, qty⟩)
            simpa [hl, hc] using hgoal
          | some item =>
            have hgoal := hstep (s.cart.getD [])
              (CartItem.clampSave s.products
                { item with quantity := if item.quantity + qty > product.stock
                    then product.stock else item.quantity + qty })
              hinv (clampSave_le s.products _)
            simpa [hl, hc] using hgoal
  · rw [hprod']
    unfold updateCartItem
    cases hcart : s.cart with
    | none => simpa [hcart] using hinv
    | some cart =>
      have hinv' : CartStockInv s.products cart := by
        simpa [hcart] using hinv
      cases hc : cart.find? (fun j => j.productId == pid) with
      | none => simpa [hc] using hinv
      | some item =>
        by_cases h1 : qty < 1
        · simpa [hc, h1] using hinv
        · by_cases h2 : qty > (getProduct s.products item.productId).stock
          · simpa [hc, h1, h2] using hinv
          · have hgoal := hstep cart
              (CartItem.clampSave s.products { item with quantity := qty })
              hinv' (clampSave_le s.products _)
            simpa [hc, h1, h2] using hgoal

/-- C8 witness: a concrete cart satisfying the invariant, written through
`addToCart`. -/
theorem cart_writes_preserve_stock_bound_witness :
    CartStockInv [⟨1, "A", 10, 5, true⟩] [⟨1, 3⟩]
    ∧ CartStockInv
        (addToCart ⟨[⟨1, "A", 10, 5, true⟩], some [⟨1, 3⟩], [], []⟩ 1 4).2.products
        ((addToCart ⟨[⟨1, "A", 10, 5, true⟩], some [⟨1, 3⟩], [], []⟩ 1 4).2.cart.getD []) :=
  ⟨by decide,
    (cart_writes_preserve_stock_bound ⟨[⟨1, "A", 10, 5, true⟩], some [⟨1, 3⟩], [], []⟩
      [] ⟨1, 1⟩ 1 4 (by decide)).2.2.1⟩

/-- A key-value cache store (the Redis backend behind `django.core.cache`),
modelled as an association list with at most one live entry per key. -/
abbrev Cache (α : Type) := List (String × α)

/-- `cache.get(key)`. -/
def cacheGet {α : Type} (c : Cache α) (key : String) : Option α :=
  (c.find? (fun e => e.1 == key)).map (fun e => e.2)

/-- `cache.set(key, value, timeout)` (timeouts are not modelled: the claims
only concern explicit invalidation). -/
def cacheSet {α : Type} (c : Cache α) (key : String) (v : α) : Cache α :=
  (key, v) :: c.filter (fun e => !(e.1 == key))

/-- `cache.delete(key)`. -/
def cacheDelete {α : Type} (c : Cache α) (key : String) : Cache α :=
  c.filter (fun e => !(e.1 == key))

/-- Bool test for `mid` occurring inside `key` as a contiguous run. -/
def charsInfix (mid key : List Char) : Bool :=
  match key with
  | [] => mid.isEmpty
  | _ :: rest => mid.isPrefixOf key || charsInfix mid rest

/-- Redis glob semantics for the patterns used by `cache_utils.py`, which
are all of the shape `*mid*`: a key matches when it contains `mid`. -/
def matchesPattern (key mid : String) : Bool :=
  charsInfix mid.toList key.toList

/-- `cache.delete_pattern("*mid*")`: drop every key containing `mid`. -/
def cacheDeletePattern {α : Type} (c : Cache α) (mid : String) : Cache α :=
  c.filter (fun e => !(matchesPattern e.1 mid))

/-- `cache_utils.py` `invalidate_product_cache` (lines 25-37): when an id is
given delete `product_detail_{id}` and `product_{id}`, then always pattern-
delete the product list keys. -/
def invalidate_product_cache {α : Type} (product_id : Option Nat) (c : Cache α) :
    Cache α :=
  let c1 := match product_id with
    | some i =>
        cacheDelete (cacheDelete c ("product_detail_" ++ toString i))
          ("product_" ++ toString i)
    | none => c
  cacheDeletePattern (cacheDeletePattern (cacheDeletePattern c1
    "products_list") "product_list") "public_products"

/-- `cache_utils.py` `get_cached_product` (lines 102-107). -/
def get_cached_product {α : Type} (c : Cache α) (product_id : Nat) : Option α :=
  cacheGet c ("product_detail_" ++ toString product_id)

/-- `cache_utils.py` `set_cached_product` (lines 110-115). -/
def set_cached_product {α : Type} (c : Cache α) (product_id : Nat) (v : α) :
    Cache α :=
  cacheSet c ("product_detail_" ++ toString product_id) v

theorem mem_cacheDeletePattern {α : Type} {c : Cache α} {mid : String}
    {e : String × α} (h : e ∈ cacheDeletePattern c mid) : e ∈ c :=
  (List.mem_filter.mp h).1

/-- C7: invalidating a product removes its detail entry (and every entry
matching the list patterns), so a `get_cached_product` read performed
immediately afterwards misses: no value cached before the invalidation
survives it, whatever the prior cache contents. -/
theorem invalidate_product_cache_roundtrip {α : Type} (c : Cache α) (pid : Nat) :
    get_cached_product (invalidate_product_cache (some pid) c) pid = none
    ∧ ∀ e ∈ invalidate_product_cache (some pid) c,
        e.1 ≠ "product_detail_" ++ toString pid
        ∧ e.1 ≠ "product_" ++ toString pid
        ∧ matchesPattern e.1 "products_list" = false
        ∧ matchesPattern e.1 "product_list" = false
        ∧ matchesPattern e.1 "public_products" = false := by
  have hmem : ∀ e ∈ invalidate_product_cache (some pid) c,
      e.1 ≠ "product_detail_" ++ toString pid
      ∧ e.1 ≠ "product_" ++ toString pid
      ∧ matchesPattern e.1 "products_list" = false
      ∧ matchesPattern e.1 "product_list" = false
      ∧ matchesPattern e.1 "public_products" = false := by
    intro e he
    simp only [invalidate_product_cache, cacheDeletePattern, cacheDelete] at he
    have h3 := List.mem_filter.mp he
    have h2 := List.mem_filter.mp h3.1
    have h1 := List.mem_filter.mp h2.1
    have hd2 := List.mem_filter.mp h1.1
    have hd1 := List.mem_filter.mp hd2.1
    refine ⟨?_, ?_, ?_, ?_, ?_⟩
    · simpa using hd1.2
    · simpa using hd2.2
    · simpa using h1.2
    · simpa using h2.2
    · simpa using h3.2
  refine ⟨?_, hmem⟩
  unfold get_cached_product cacheGet
  rw [Option.map_eq_none', List.find?_eq_none]
  intro e he
  have := (hmem e he).1
  simpa using this

/-- C7 witness: a cache holding the detail entry for product 1 and an
unrelated key; after invalidation the detail read misses, and the surviving
unrelated entry indeed carries a different key. -/
theorem invalidate_product_cache_roundtrip_witness :
    get_cached_product (invalidate_product_cache (some 1)
        [("product_detail_1", 0), ("other", 1)]) 1 = none
    ∧ ("other", (1 : Nat)).1 ≠ "product_detail_" ++ toString 1 :=
  ⟨(invalidate_product_cache_roundtrip [("product_detail_1", 0), ("other", 1)] 1).1,
    ((invalidate_product_cache_roundtrip [("product_detail_1", 0), ("other", 1)] 1).2
      ("other", 1) (by decide)).1⟩

/-- `models.py` `CartItem.total_price` property: `product.price * quantity`. -/
def cartItemTotal (ps : List Product) (it : CartItem) : Int :=
  (getProduct ps it.productId).price * it.quantity

/-- `models.py` `Cart.total_price` property (lines 85-88): sum of the line
totals, computed fresh from the current rows. -/
def cartTotalPrice (ps : List Product) (items : List CartItem) : Int :=
  (items.map (cartItemTotal ps)).sum

/-- Outcome of `CreateOrderView.post`. -/
inductive CreateOrderResp where
  | created (order : Order)
  | badRequest (error : String)
deriving DecidableEq, Repr

/-- `views.py` `CreateOrderView.post` lines 536-545: the per-line loop that
creates an `OrderItem` with the product's current price and then calls
`decrease_stock`, whose boolean result the view discards. -/
def orderLoop (ps : List Product) (items : List CartItem) :
    List Product × List OrderItem :=
  match items with
  | [] => (ps, [])
  | it :: rest =>
    let p := getProduct ps it.productId
    let oi : OrderItem := ⟨it.productId, it.quantity, p.price⟩
    let res := orderLoop (saveProduct ps (p.decrease_stock it.quantity).1) rest
    (res.1, oi :: res.2)

/-- `views.py` `CreateOrderView.post` (lines 508-577). The view is not
wrapped in a database transaction, and its two passes over the cart
(`cart.items.all()` at line 523 for the stock pre-check and again at line
537 for the mutation loop) are separate queries; `interfere` models writes
committed by concurrent requests in the window between them (§5 of the spec:
two orders for the same product may race). `interfere = fun ps => ps` is the
race-free run. `notifyFails` models the `except` branch of the
notification `try/except` (lines 550-570) being taken. -/
def createOrderWith (interfere : List Product → List Product)
    (notifyFails : Bool) (s : St) (userId : Nat) (shipping_address : String) :
    CreateOrderResp × St :=
  match s.cart with
  | none => (.badRequest "Cart is empty", s)
  | some items =>
    if items.isEmpty then (.badRequest "Cart is empty", s)
    else
      match items.find?
          (fun it => it.quantity > (getProduct s.products it.productId).stock) with
      | some bad =>
        (.badRequest ("Insufficient stock for "
            ++ (getProduct s.products bad.productId).name
            ++ ". Available: "
            ++ toString (getProduct s.products bad.productId).stock), s)
      | none =>
        let ps := interfere s.products
        let total := cartTotalPrice ps items
        let oid := s.orders.length + 1
        let res := orderLoop ps items
        let order : Order := ⟨oid, userId, .pending, total, shipping_address, res.2⟩
        let evs := if notifyFails then s.events
          else s.events ++ [.order_created userId oid, .new_order oid userId]
        (.created order, ⟨res.1, some [], s.orders ++ [order], evs⟩)

/-- `POST /orders/create` in a race-free run with working notifications. -/
def createOrder (s : St) (userId : Nat) (shipping_address : String) :
    CreateOrderResp × St :=
  createOrderWith (fun ps => ps) false s userId shipping_address

theorem getProduct_id (ps : List Product) (pid : Nat) :
    (getProduct ps pid).id = pid := by
  unfold getProduct
  cases hf : findProduct ps pid with
  | none => rfl
  | some p =>
    have := List.find?_some hf
    simpa using this

theorem saveProduct_id_preserving (q r : Product) :
    (if r.id == q.id then q else r).id = r.id := by
  by_cases h : (r.id == q.id) = true
  · have : r.id = q.id := by simpa using h
    simp [h, this]
  · simp [h]

theorem wf_saveProduct {ps : List Product} (q : Product) (hwf : ProductsWF ps) :
    ProductsWF (saveProduct ps q) := by
  unfold saveProduct ProductsWF
  refine List.Pairwise.map _ ?_ hwf
  intro a b hab
  rw [saveProduct_id_preserving q a, saveProduct_id_preserving q b]
  exact hab

theorem findProduct_saveProduct (ps : List Product) (q : Product) (pid : Nat) :
    findProduct (saveProduct ps q) pid =
      (findProduct ps pid).map (fun r => if r.id == q.id then q else r) := by
  unfold findProduct saveProduct
  rw [List.find?_map]
  have hfun : ((fun p : Product => p.id == pid) ∘ fun r => if r.id == q.id then q else r)
      = (fun p : Product => p.id == pid) := by
    funext r
    show ((if r.id == q.id then q else r).id == pid) = (r.id == pid)
    rw [saveProduct_id_preserving q r]
  rw [hfun]

theorem getProduct_save_ne (ps : List Product) (q : Product) (pid : Nat)
    (hne : q.id ≠ pid) :
    getProduct (saveProduct ps q) pid = getProduct ps pid := by
  unfold getProduct
  rw [findProduct_saveProduct]
  cases hf : findProduct ps pid with
  | none => rfl
  | some r =>
    have hr : r.id = pid := by simpa using List.find?_some hf
    have hrq : (r.id == q.id) = false := by
      simp [hr]
      exact fun h => hne h.symm
    simp [hrq]
    intro h
    exact absurd h (by simpa using hrq)

theorem decrease_stock_fst_id (p : Product) (q : Int) :
    (p.decrease_stock q).1.id = p.id := by
  unfold Product.decrease_stock
  by_cases h : p.stock ≥ q <;> simp [h]

/-- The mutation loop writes exactly the order items frozen from the cart
(price read from the table as it stood when the loop started, since
decrements do not touch prices) and applies `decrease_stock` once to each
ordered product, leaving other rows alone. -/
theorem orderLoop_spec (ps : List Product) (items : List CartItem)
    (hwf : ProductsWF ps)
    (hdist : items.Pairwise (fun a b => a.productId ≠ b.productId)) :
    (orderLoop ps items).2 =
      items.map (fun it =>
        OrderItem.mk it.productId it.quantity (getProduct ps it.productId).price)
    ∧ (orderLoop ps items).1 =
      ps.map (fun p =>
        match items.find? (fun it => it.productId == p.id) with
        | some it => (p.decrease_stock it.quantity).1
        | none => p) := by
  induction items generalizing ps with
  | nil =>
    constructor
    · simp [orderLoop]
    · simp [orderLoop, List.find?]
  | cons it rest ih =>
    rw [List.pairwise_cons] at hdist
    have hq_id : ((getProduct ps it.productId).decrease_stock it.quantity).1.id
        = it.productId := by
      rw [decrease_stock_fst_id, getProduct_id]
    set q := ((getProduct ps it.productId).decrease_stock it.quantity).1 with hq
    have hwf1 : ProductsWF (saveProduct ps q) := wf_saveProduct q hwf
    obtain ⟨ih2, ih1⟩ := ih (saveProduct ps q) hwf1 hdist.2
    have hunf : orderLoop ps (it :: rest) =
        ((orderLoop (saveProduct ps q) rest).1,
          OrderItem.mk it.productId it.quantity (getProduct ps it.productId).price
            :: (orderLoop (saveProduct ps q) rest).2) := by
      simp [orderLoop, hq]
    constructor
    · rw [hunf, ih2]
      simp only [List.map_cons]
      congr 1
      apply List.map_congr_left
      intro jt hjt
      have hne : q.id ≠ jt.productId := by
        rw [hq_id]; exact hdist.1 jt hjt
      rw [getProduct_save_ne ps q jt.productId hne]
    · rw [hunf, ih1]
      unfold saveProduct
      rw [List.map_map]
      apply List.map_congr_left
      intro p hp
      simp only [Function.comp, saveProduct_id_preserving]
      by_cases hpq : (p.id == q.id) = true
      · have hpid : p.id = it.productId := by
          rw [← hq_id]; simpa using hpq
        have hrest : rest.find? (fun jt => jt.productId == p.id) = none := by
          rw [List.find?_eq_none]
          intro jt hjt
          simp [hpid]
          exact fun h => (hdist.1 jt hjt) h.symm
        have hhead : (it.productId == p.id) = true := by simp [hpid]
        have hgp : getProduct ps it.productId = p := by
          rw [← hpid]; exact getProduct_eq hwf hp
        simp only [List.find?, hhead, hrest]
        rw [if_pos hpq, hq, hgp]
      · have hpid : it.productId ≠ p.id := by
          intro h
          exact hpq (by simp [hq_id, ← h])
        have hbq : (p.id == q.id) = false := by simpa using hpq
        have hhead : (it.productId == p.id) = false := by simp [hpid]
        simp [List.find?, hhead, hbq]

/-- C5: an order-creation attempt with a missing or empty cart reports
"Cart is empty" and mutates nothing; an attempt in which some line's
quantity exceeds its product's stock reports "Insufficient stock for X.
Available: N" for a violating line (the first one the pre-check meets) and
mutates nothing: no Order, no OrderItem, no stock change, cart intact. -/
theorem createOrder_conflict_no_mutation (s : St) (uid : Nat) (addr : String) :
    ((s.cart = none ∨ s.cart = some []) →
      (createOrder s uid addr).1 = .badRequest "Cart is empty"
      ∧ (createOrder s uid addr).2 = s)
    ∧ (∀ items, s.cart = some items →
        (∃ bad ∈ items,
          bad.quantity > (getProduct s.products bad.productId).stock) →
        ∃ bad ∈ items,
          bad.quantity > (getProduct s.products bad.productId).stock
          ∧ (createOrder s uid addr).1 = .badRequest ("Insufficient stock for "
              ++ (getProduct s.products bad.productId).name
              ++ ". Available: "
              ++ toString (getProduct s.products bad.productId).stock)
          ∧ (createOrder s uid addr).2 = s) := by
  constructor
  · rintro (hc | hc) <;> exact ⟨by simp [createOrder, createOrderWith, hc],
      by simp [createOrder, createOrderWith, hc]⟩
  · intro items hc hex
    have hsome : (items.find? (fun it =>
        it.quantity > (getProduct s.products it.productId).stock)).isSome := by
      rw [List.find?_isSome]
      obtain ⟨bad, hmem, hbad⟩ := hex
      exact ⟨bad, hmem, by simpa using hbad⟩
    obtain ⟨bad, hfind⟩ := Option.isSome_iff_exists.mp hsome
    have hmem := List.mem_of_find?_eq_some hfind
    have hbad : bad.quantity > (getProduct s.products bad.productId).stock := by
      simpa using List.find?_some hfind
    have hie : items.isEmpty = false := by
      cases items with
      | nil => cases hmem
      | cons a l => rfl
    exact ⟨bad, hmem, hbad,
      by simp [createOrder, createOrderWith, hc, hie, hfind],
      by simp [createOrder, createOrderWith, hc, hie, hfind]⟩

/-- C5 witness: cart holds 2 of product A (stock 5) and 1 of product B
(stock 0); creation fails naming B with its available stock and the state
is untouched. -/
theorem createOrder_conflict_no_mutation_witness :
    ∃ bad ∈ [CartItem.mk 1 2, CartItem.mk 2 1],
      bad.quantity > (getProduct [Product.mk 1 "A" 10 5 true,
          Product.mk 2 "B" 5 0 true] bad.productId).stock
      ∧ (createOrder ⟨[Product.mk 1 "A" 10 5 true, Product.mk 2 "B" 5 0 true],
            some [CartItem.mk 1 2, CartItem.mk 2 1], [], []⟩ 9 "addr").1 =
          .badRequest ("Insufficient stock for "
            ++ (getProduct [Product.mk 1 "A" 10 5 true,
                Product.mk 2 "B" 5 0 true] bad.productId).name
            ++ ". Available: "
            ++ toString (getProduct [Product.mk 1 "A" 10 5 true,
                Product.mk 2 "B" 5 0 true] bad.productId).stock)
      ∧ (createOrder ⟨[Product.mk 1 "A" 10 5 true, Product.mk 2 "B" 5 0 true],
            some [CartItem.mk 1 2, CartItem.mk 2 1], [], []⟩ 9 "addr").2 =
          ⟨[Product.mk 1 "A" 10 5 true, Product.mk 2 "B" 5 0 true],
            some [CartItem.mk 1 2, CartItem.mk 2 1], [], []⟩ :=
  (createOrder_conflict_no_mutation
    ⟨[Product.mk 1 "A" 10 5 true, Product.mk 2 "B" 5 0 true],
      some [CartItem.mk 1 2, CartItem.mk 2 1], [], []⟩ 9 "addr").2
    [CartItem.mk 1 2, CartItem.mk 2 1] rfl
    ⟨CartItem.mk 2 1, by decide, by decide⟩

/-- C4: creating an order from a non-empty cart whose every line fits the
current stock yields an Order whose total is the sum of quantity times the
product price at order time, order items freezing each line's quantity and
unit price, a product table in which exactly the ordered products have
their stock reduced by the ordered quantity, and an empty cart. -/
theorem createOrder_success_snapshot (s : St) (uid : Nat) (addr : String)
    (items : List CartItem)
    (hwf : ProductsWF s.products)
    (hcart : s.cart = some items) (hne : items ≠ [])
    (hdist : items.Pairwise (fun a b => a.productId ≠ b.productId))
    (hstock : ∀ it ∈ items,
      it.quantity ≤ (getProduct s.products it.productId).stock) :
    (createOrder s uid addr).1 = .created
      ⟨s.orders.length + 1, uid, .pending,
        (items.map (fun it =>
          (getProduct s.products it.productId).price * it.quantity)).sum,
        addr,
        items.map (fun it =>
          OrderItem.mk it.productId it.quantity
            (getProduct s.products it.productId).price)⟩
    ∧ (createOrder s uid addr).2.orders = s.orders ++
        [⟨s.orders.length + 1, uid, .pending,
          (items.map (fun it =>
            (getProduct s.products it.productId).price * it.quantity)).sum,
          addr,
          items.map (fun it =>
            OrderItem.mk it.productId it.quantity
              (getProduct s.products it.productId).price)⟩]
    ∧ (createOrder s uid addr).2.cart = some []
    ∧ (createOrder s uid addr).2.products = s.products.map (fun p =>
        match items.find? (fun it => it.productId == p.id) with
        | some it => { p with stock := p.stock - it.quantity }
        | none => p) := by
  have hie : items.isEmpty = false := by
    cases items with
    | nil => exact absurd rfl hne
    | cons a l => rfl
  have hpre : items.find?
      (fun it => it.quantity > (getProduct s.products it.productId).stock)
      = none := by
    rw [List.find?_eq_none]
    intro it hit
    simp only [decide_eq_true_eq]
    exact not_lt.mpr (hstock it hit)
  obtain ⟨hl2, hl1⟩ := orderLoop_spec s.products items hwf hdist
  have hprods : (orderLoop s.products items).1 = s.products.map (fun p =>
      match items.find? (fun it => it.productId == p.id) with
      | some it => { p with stock := p.stock - it.quantity }
      | none => p) := by
    rw [hl1]
    apply List.map_congr_left
    intro p hp
    cases hf : items.find? (fun it => it.productId == p.id) with
    | none => rfl
    | some it =>
      have hit := List.mem_of_find?_eq_some hf
      have hid : it.productId = p.id := by simpa using List.find?_some hf
      have hgp : getProduct s.products it.productId = p := by
        rw [hid]; exact getProduct_eq hwf hp
      have hge : p.stock ≥ it.quantity := by
        have := hstock it hit
        rwa [hgp] at this
      show (p.decrease_stock it.quantity).1 = _
      unfold Product.decrease_stock
      rw [if_pos hge]
  have htot : cartTotalPrice s.products items =
      (items.map (fun it =>
        (getProduct s.products it.productId).price * it.quantity)).sum := by
    rfl
  refine ⟨?_, ?_, ?_, ?_⟩
  · simp [createOrder, createOrderWith, hcart, hie, hpre, hl2, htot]
  · simp [createOrder, createOrderWith, hcart, hie, hpre, hl2, htot]
  · simp [createOrder, createOrderWith, hcart, hie, hpre]
  · simp only [createOrder, createOrderWith, hcart, hie, hpre]
    simpa using hprods

/-- C4 witness: cart with 1 unit of product A (stock 5, price 20): the
order totals 20, freezes (qty 1, price 20), stock drops to 4, cart empties
(spec §8 scenario). -/
theorem createOrder_success_snapshot_witness :
    (createOrder ⟨[Product.mk 1 "A" 20 5 true], some [CartItem.mk 1 1], [], []⟩
        7 "addr").1 =
      .created ⟨1, 7, .pending, 20, "addr", [OrderItem.mk 1 1 20]⟩
    ∧ (createOrder ⟨[Product.mk 1 "A" 20 5 true], some [CartItem.mk 1 1], [], []⟩
        7 "addr").2.cart = some []
    ∧ (createOrder ⟨[Product.mk 1 "A" 20 5 true], some [CartItem.mk 1 1], [], []⟩
        7 "addr").2.products = [Product.mk 1 "A" 20 4 true] := by
  have h := createOrder_success_snapshot
    ⟨[Product.mk 1 "A" 20 5 true], some [CartItem.mk 1 1], [], []⟩ 7 "addr"
    [CartItem.mk 1 1] (by decide) rfl (by decide) (by decide) (by decide)
  obtain ⟨h1, h2, h3, h4⟩ := h
  refine ⟨?_, h3, ?_⟩
  · rw [h1]; decide
  · rw [h4]; decide

/-- C1 (exhibits the code bug): product A has stock 1; the pre-check
passes, then a concurrent order (modelled by `interfere`) takes the last
unit before the mutation loop runs. `decrease_stock` fails and returns
`false`, but `CreateOrderView.post` discards that boolean and runs no
transaction: the Order and its OrderItem are persisted, the cart is
cleared, and the caller is told the order was created — there is no
rollback and no stock-conflict error. -/
theorem createOrder_race_commits_without_rollback :
    ((Product.mk 1 "A" 10 0 true).decrease_stock 1).2 = false
    ∧ (createOrderWith (fun ps => saveProduct ps (Product.mk 1 "A" 10 0 true))
        false ⟨[Product.mk 1 "A" 10 1 true], some [CartItem.mk 1 1], [], []⟩
        7 "addr").1 =
      .created ⟨1, 7, .pending, 10, "addr", [OrderItem.mk 1 1 10]⟩
    ∧ (createOrderWith (fun ps => saveProduct ps (Product.mk 1 "A" 10 0 true))
        false ⟨[Product.mk 1 "A" 10 1 true], some [CartItem.mk 1 1], [], []⟩
        7 "addr").2 =
      ⟨[Product.mk 1 "A" 10 0 true], some [],
        [⟨1, 7, .pending, 10, "addr", [OrderItem.mk 1 1 10]⟩],
        [.order_created 7 1, .new_order 1 7]⟩ := by
  refine ⟨by decide, by decide, by decide⟩

/-- C9: notification delivery failure is isolated. The `notifyFails` flags
model the `except` branches of the `try/except` blocks around event
emission in `CreateOrderView.post`, `Order.update_status` and
`AdminOrderStatusUpdateView.patch`: whatever their value, the response and
the business state (products, cart, orders) are identical to a run with
working notifications — a failure never propagates, rolls back, or turns a
success into an error. -/
theorem notification_failure_isolated (interfere : List Product → List Product)
    (s : St) (uid oid : Nat) (addr : String) (target : OrderStatus)
    (f1 f2 g1 g2 : Bool) :
    ((createOrderWith interfere f1 s uid addr).1
        = (createOrderWith interfere f2 s uid addr).1
    ∧ (createOrderWith interfere f1 s uid addr).2.products
        = (createOrderWith interfere f2 s uid addr).2.products
    ∧ (createOrderWith interfere f1 s uid addr).2.cart
        = (createOrderWith interfere f2 s uid addr).2.cart
    ∧ (createOrderWith interfere f1 s uid addr).2.orders
        = (createOrderWith interfere f2 s uid addr).2.orders)
    ∧ ((adminOrderStatusUpdate s oid target f1 f2).1
        = (adminOrderStatusUpdate s oid target g1 g2).1
    ∧ (adminOrderStatusUpdate s oid target f1 f2).2.orders
        = (adminOrderStatusUpdate s oid target g1 g2).2.orders) := by
  constructor
  · unfold createOrderWith
    cases hc : s.cart with
    | none => exact ⟨rfl, rfl, rfl, rfl⟩
    | some items =>
      by_cases hie : items.isEmpty
      · simp [hie]
      · cases hf : items.find?
            (fun it => it.quantity > (getProduct s.products it.productId).stock) with
        | some bad => simp [hie, hf]
        | none => simp [hie, hf]
  · unfold adminOrderStatusUpdate
    cases ho : findOrder s.orders oid with
    | none => exact ⟨rfl, rfl⟩
    | some order =>
      by_cases hv : validate_status order.status target
      · simp [hv, Order.update_status]
      · simp [hv]

/-- C10 (implicit): an accepted status update emits `order_update` to the
owning user's channel twice — once inside `Order.update_status` and once
again from `AdminOrderStatusUpdateView.patch` — besides the single
`order_status_changed` on the admin channel, so a connected customer
receives two `order_update` messages per status change. -/
theorem accepted_status_update_emits_order_update_twice (s : St) (oid : Nat)
    (target : OrderStatus) (order : Order)
    (hfind : findOrder s.orders oid = some order)
    (hacc : validate_status order.status target = true) :
    (adminOrderStatusUpdate s oid target false false).2.events =
      s.events ++ [.order_update order.userId order.id order.status target,
        .order_update order.userId order.id order.status target,
        .order_status_changed order.id order.status target]
    ∧ (adminOrderStatusUpdate s oid target false false).2.events.count
          (Event.order_update order.userId order.id order.status target)
        = s.events.count
            (Event.order_update order.userId order.id order.status target) + 2 := by
  have hev : (adminOrderStatusUpdate s oid target false false).2.events =
      s.events ++ [.order_update order.userId order.id order.status target,
        .order_update order.userId order.id order.status target,
        .order_status_changed order.id order.status target] := by
    simp [adminOrderStatusUpdate, hfind, hacc, Order.update_status]
  refine ⟨hev, ?_⟩
  rw [hev]
  simp [List.count_append, List.count_cons]

/-- C10 witness: a pending order moved to shipped gains exactly two
`order_update` events for its owner. -/
theorem accepted_status_update_emits_order_update_twice_witness :
    (adminOrderStatusUpdate ⟨[], none, [⟨1, 7, .pending, 10, "a", []⟩], []⟩
        1 .shipped false false).2.events.count
      (Event.order_update 7 1 .pending .shipped) = 2 := by
  have h := (accepted_status_update_emits_order_update_twice
    ⟨[], none, [⟨1, 7, .pending, 10, "a", []⟩], []⟩ 1 .shipped
    ⟨1, 7, .pending, 10, "a", []⟩ rfl (by decide)).2
  simpa using h

end ECommerce
